import Mathlib

/-!
Verification of the ranking-aggregation core of the ETL_AirFlow repository
(`src/dags/coaches_top3_dag.py`): a shallow embedding in Lean 4 of the
`transform_data` step (filter first places, inner-join results → athletes →
coaches, group by coach name, count, sort descending, take 3) and of the
`load_to_database` step (create table if missing, delete all rows, append the
new entries with autoincremented ids), together with theorems settling the
specification's claims about them.
-/

namespace CoachesTop3

/-- A competition result record, as parsed from `results.json`:
`athlete_id` and `place` columns used by `transform_data`. -/
structure ResultRecord where
  athlete_id : Int
  place : Int
  deriving Repr, DecidableEq

/-- An athlete record, as parsed from `athletes.csv`: the columns used by
the joins are `athlete_id` and `coach_id`. -/
structure Athlete where
  athlete_id : Int
  coach_id : Int
  deriving Repr, DecidableEq

/-- A coach record, as parsed from `coaches.xlsx`: the columns used are
`coach_id` (join key) and `coach_name` (grouping key). -/
structure Coach where
  coach_id : Int
  coach_name : String
  deriving Repr, DecidableEq

/-- `df_results[df_results['place'] == 1]`: keep only first places,
preserving input order. -/
def winners (results : List ResultRecord) : List ResultRecord :=
  results.filter (fun r => r.place = 1)

/-- `winners.merge(df_athletes, on='athlete_id')`: pandas inner join.
For each left row in order, it pairs the row with every athlete record whose
`athlete_id` matches, in right-frame order; unmatched rows are dropped. -/
def mergeAthletes (ws : List ResultRecord) (athletes : List Athlete) :
    List (ResultRecord × Athlete) :=
  ws.flatMap (fun w =>
    (athletes.filter (fun a => a.athlete_id = w.athlete_id)).map (fun a => (w, a)))

/-- `.merge(df_coaches, on='coach_id')`: second pandas inner join, on the
coach identifier carried by the athlete record. -/
def mergeCoaches (ps : List (ResultRecord × Athlete)) (coaches : List Coach) :
    List ((ResultRecord × Athlete) × Coach) :=
  ps.flatMap (fun p =>
    (coaches.filter (fun c => c.coach_id = p.2.coach_id)).map (fun c => (p, c)))

/-- The fully joined frame `merged` of `transform_data`. -/
def mergedRows (results : List ResultRecord) (athletes : List Athlete)
    (coaches : List Coach) : List ((ResultRecord × Athlete) × Coach) :=
  mergeCoaches (mergeAthletes (winners results) athletes) coaches

/-- The `coach_name` column of the joined frame, one entry per joined row. -/
def coachNames (results : List ResultRecord) (athletes : List Athlete)
    (coaches : List Coach) : List String :=
  (mergedRows results athletes coaches).map (fun p => p.2.coach_name)

/-- Insertion step of an ascending sort on strings, modelling the ascending
order in which `groupby('coach_name', sort=True)` emits its group keys. -/
def insertKey (s : String) : List String → List String
  | [] => [s]
  | t :: ts => if s ≤ t then s :: t :: ts else t :: insertKey s ts

/-- Ascending sort of the group keys (pandas `groupby` sorts keys). -/
def sortKeys : List String → List String
  | [] => []
  | t :: ts => insertKey t (sortKeys ts)

/-- `merged.groupby('coach_name').size().reset_index(name='first_places')`:
one row per distinct coach name, in ascending key order, carrying the number
of joined rows with that name. -/
def groupCounts (names : List String) : List (String × Nat) :=
  (sortKeys names.dedup).map (fun n => (n, names.count n))

/-- Insertion step of a sort by count descending, modelling
`.sort_values('first_places', ascending=False)`.  The source's sort leaves
the order of equal counts unspecified; this embedding fixes one
deterministic tie order, and no theorem below depends on it. -/
def insertCnt (x : String × Nat) : List (String × Nat) → List (String × Nat)
  | [] => [x]
  | y :: ys => if y.2 < x.2 then x :: y :: ys else y :: insertCnt x ys

/-- Sort the grouped counts by count descending. -/
def sortCountsDesc : List (String × Nat) → List (String × Nat)
  | [] => []
  | y :: ys => insertCnt y (sortCountsDesc ys)

/-- The ranking computation of `transform_data`, generalized over the result
set size exactly as the spec's `compute_top_k`: filter qualifying results,
inner-join to athletes then coaches, group by coach name with row counts,
sort by count descending, take the first `k`. -/
def compute_top_k (results : List ResultRecord) (athletes : List Athlete)
    (coaches : List Coach) (k : Nat) : List (String × Nat) :=
  (sortCountsDesc (groupCounts (coachNames results athletes coaches))).take k

/-- The ranking pipeline of `transform_data` with `k = 3`, under the
precondition that all three frames carry their columns (each input record
set is non-empty); `transform_data_run` below is the fallible entry point
that models the column accesses themselves. -/
def transform_data (results : List ResultRecord) (athletes : List Athlete)
    (coaches : List Coach) : List (String × Nat) :=
  compute_top_k results athletes coaches 3

/-- The transform step as the DAG runs it, column accesses included.
`pd.DataFrame` of an empty record list is a frame with no columns, so
`df_results['place']` raises `KeyError: 'place'` when the results set is
empty; likewise the first merge key when the athletes set is empty and the
second merge key when the coaches set is empty.  The error value is the
missing key. -/
def transform_data_run (results : List ResultRecord) (athletes : List Athlete)
    (coaches : List Coach) : Except String (List (String × Nat)) :=
  if results.isEmpty then Except.error "place"
  else if athletes.isEmpty then Except.error "athlete_id"
  else if coaches.isEmpty then Except.error "coach_id"
  else Except.ok (compute_top_k results athletes coaches 3)

/-- Spec-side measure: the number of distinct coach names carried by the
qualifying joined rows (the grouping key of `transform_data` is the name). -/
def distinctQualifyingCoachNames (results : List ResultRecord)
    (athletes : List Athlete) (coaches : List Coach) : Nat :=
  (coachNames results athletes coaches).dedup.length

/-- Spec-side measure: the number of distinct coaches — coach records
identified by their `coach_id` — having at least one qualifying result that
joins through to them. -/
def distinctQualifyingCoachIds (results : List ResultRecord)
    (athletes : List Athlete) (coaches : List Coach) : Nat :=
  ((mergedRows results athletes coaches).map (fun p => p.2.coach_id)).dedup.length

/-- The full Cartesian product of the three input record sets, each element
a (result, athlete, coach) triple. -/
def resultProduct (results : List ResultRecord) (athletes : List Athlete)
    (coaches : List Coach) : List ((ResultRecord × Athlete) × Coach) :=
  results.flatMap (fun x =>
    athletes.flatMap (fun ath => coaches.map (fun co => ((x, ath), co))))

/-- A triple qualifies and joins: the result is a first place, the athlete
record matches the result's athlete identifier, and the coach record matches
the athlete's coach identifier. -/
def tripleJoins (t : (ResultRecord × Athlete) × Coach) : Prop :=
  t.1.1.place = 1 ∧ t.1.2.athlete_id = t.1.1.athlete_id ∧
    t.2.coach_id = t.1.2.coach_id

instance (t : (ResultRecord × Athlete) × Coach) : Decidable (tripleJoins t) := by
  unfold tripleJoins; infer_instance

/-- Spec-side count for a coach name: the number of (result, athlete, coach)
triples in the full product that qualify, join, and carry that name.  Each
qualifying result is counted once per matching athlete record, summed over
every coach record bearing the name. -/
def tripleCount (results : List ResultRecord) (athletes : List Athlete)
    (coaches : List Coach) (name : String) : Nat :=
  (resultProduct results athletes coaches).countP
    (fun t => decide (tripleJoins t ∧ t.2.coach_name = name))

/-- A row of the SQLite `top_coaches` table: the autoincrement primary key
`id` plus the two data columns `coach_name` and `first_places` written by
`df.to_sql` (the `analysis_date` column is filled by the database clock and
carries no program-controlled data, so it is not modelled). -/
structure StoredRow where
  id : Nat
  coach_name : String
  first_places : Nat
  deriving Repr, DecidableEq

/-- The state of the SQLite store: the rows of `top_coaches` in insertion
order, plus the AUTOINCREMENT sequence value used for the next `id`.
`CREATE TABLE IF NOT EXISTS` means the table always exists after
`load_to_database` starts, so the state of a store without the table is the
state with an empty row list. -/
structure Store where
  nextId : Nat
  rows : List StoredRow
  deriving Repr, DecidableEq

/-- One `INSERT` performed by `df.to_sql(..., if_exists='append')`: the row
receives the next autoincrement id and goes to the end of the table. -/
def insertRow (s : Store) (e : String × Nat) : Store :=
  { nextId := s.nextId + 1,
    rows := s.rows ++ [⟨s.nextId, e.1, e.2⟩] }

/-- The load step `load_to_database`: create the table if missing, run
`DELETE FROM top_coaches`, then append every entry of the transform result
(`coach_name`, `first_places` pairs) in order. -/
def load_to_database (entries : List (String × Nat)) (s : Store) : Store :=
  entries.foldl insertRow { s with rows := [] }

/-- The data content of a stored row: the `(coach_name, first_places)` pair,
forgetting the autoincrement id. -/
def rowContent (r : StoredRow) : String × Nat :=
  (r.coach_name, r.first_places)

end CoachesTop3

namespace CoachesTop3

/-- The rows left by `load_to_database` are exactly the supplied entries in
order (their data content, ignoring the autoincrement ids). -/
theorem load_rows_content (entries : List (String × Nat)) (s : Store) :
    (load_to_database entries s).rows.map rowContent = entries := by
  suffices h : ∀ (st : Store),
      (entries.foldl insertRow st).rows.map rowContent
        = st.rows.map rowContent ++ entries by
    simpa [load_to_database] using h { s with rows := [] }
  induction entries with
  | nil => intro st; simp
  | cons e es ih =>
      intro st
      simp [List.foldl_cons, ih, insertRow, rowContent]

/-- Inserting into the key sort adds one element. -/
theorem length_insertKey (s : String) (l : List String) :
    (insertKey s l).length = l.length + 1 := by
  induction l with
  | nil => rfl
  | cons t ts ih => by_cases h : s ≤ t <;> simp [insertKey, h, ih]

/-- Sorting the group keys preserves the number of keys. -/
theorem length_sortKeys (l : List String) : (sortKeys l).length = l.length := by
  induction l with
  | nil => rfl
  | cons t ts ih => simp [sortKeys, length_insertKey, ih]

/-- The grouped frame has one row per distinct coach name. -/
theorem length_groupCounts (ns : List String) :
    (groupCounts ns).length = ns.dedup.length := by
  simp [groupCounts, length_sortKeys]

/-- Inserting into the descending sort adds one element. -/
theorem length_insertCnt (x : String × Nat) (l : List (String × Nat)) :
    (insertCnt x l).length = l.length + 1 := by
  induction l with
  | nil => rfl
  | cons y ys ih => by_cases h : y.2 < x.2 <;> simp [insertCnt, h, ih]

/-- The descending sort preserves length. -/
theorem length_sortCountsDesc (l : List (String × Nat)) :
    (sortCountsDesc l).length = l.length := by
  induction l with
  | nil => rfl
  | cons y ys ih => simp [sortCountsDesc, length_insertCnt, ih]

/-- Membership through the descending-sort insertion. -/
theorem mem_insertCnt {x y : String × Nat} {l : List (String × Nat)} :
    y ∈ insertCnt x l ↔ y = x ∨ y ∈ l := by
  induction l with
  | nil => simp [insertCnt]
  | cons z zs ih =>
      by_cases h : z.2 < x.2
      · simp [insertCnt, h]
      · simp [insertCnt, h, ih]
        tauto

/-- The descending sort has the same members as its input. -/
theorem mem_sortCountsDesc {y : String × Nat} {l : List (String × Nat)} :
    y ∈ sortCountsDesc l ↔ y ∈ l := by
  induction l with
  | nil => simp [sortCountsDesc]
  | cons z zs ih => simp [sortCountsDesc, mem_insertCnt, ih]

/-- Inserting into a non-increasing list keeps it non-increasing. -/
theorem pairwise_insertCnt {x : String × Nat} {l : List (String × Nat)}
    (h : l.Pairwise (fun p q => q.2 ≤ p.2)) :
    (insertCnt x l).Pairwise (fun p q => q.2 ≤ p.2) := by
  induction l with
  | nil => simp [insertCnt]
  | cons y ys ih =>
      rcases List.pairwise_cons.mp h with ⟨hy, hys⟩
      by_cases hc : y.2 < x.2
      · simp only [insertCnt, if_pos hc]
        refine List.pairwise_cons.mpr ⟨?_, h⟩
        intro z hz
        rcases List.mem_cons.mp hz with rfl | hz
        · exact Nat.le_of_lt hc
        · exact Nat.le_trans (hy z hz) (Nat.le_of_lt hc)
      · simp only [insertCnt, if_neg hc]
        refine List.pairwise_cons.mpr ⟨?_, ih hys⟩
        intro z hz
        rcases mem_insertCnt.mp hz with rfl | hz
        · exact Nat.le_of_not_lt hc
        · exact hy z hz

/-- The descending sort produces a non-increasing list of counts. -/
theorem pairwise_sortCountsDesc (l : List (String × Nat)) :
    (sortCountsDesc l).Pairwise (fun p q => q.2 ≤ p.2) := by
  induction l with
  | nil => simp [sortCountsDesc]
  | cons y ys ih => exact pairwise_insertCnt ih

/-- A row of the grouped frame carries the occurrence count of its name. -/
theorem mem_sortKeys {s : String} {l : List String} :
    s ∈ sortKeys l ↔ s ∈ l := by
  induction l with
  | nil => simp [sortKeys]
  | cons t ts ih =>
      have hmem : ∀ (u : String) (m : List String), s ∈ insertKey u m ↔ s = u ∨ s ∈ m := by
        intro u m
        induction m with
        | nil => simp [insertKey]
        | cons v vs ihm =>
            by_cases h : u ≤ v
            · simp [insertKey, h]
            · simp [insertKey, h, ihm]
              tauto
      simp [sortKeys, hmem, ih]

/-- Membership in the grouped frame determines the count column. -/
theorem mem_groupCounts {n : String} {cnt : Nat} {ns : List String}
    (h : (n, cnt) ∈ groupCounts ns) : cnt = ns.count n := by
  simp only [groupCounts, List.mem_map] at h
  obtain ⟨m, _, he⟩ := h
  obtain ⟨rfl, rfl⟩ := Prod.mk.injEq .. ▸ he
  rfl

/-- `flatMap` respects pointwise equality of its function on the list. -/
theorem flatMap_congr {α β : Type} (l : List α) (f g : α → List β)
    (h : ∀ x ∈ l, f x = g x) : l.flatMap f = l.flatMap g := by
  induction l with
  | nil => rfl
  | cons y ys ih =>
      simp only [List.flatMap_cons]
      rw [h y (List.mem_cons_self y ys), ih fun x hx => h x (List.mem_cons_of_mem y hx)]

/-- `flatMap` over a filtered list is `flatMap` with an emptiness guard. -/
theorem flatMap_filter_eq {α β : Type} (p : α → Bool) (g : α → List β)
    (l : List α) :
    (l.filter p).flatMap g = l.flatMap (fun x => if p x then g x else []) := by
  induction l with
  | nil => rfl
  | cons y ys ih => by_cases h : p y <;> simp [List.filter_cons, h, ih]

/-- Filtering the coach column of the product block equals the inner join on
the coach identifier, once the result qualifies and the athlete matches. -/
theorem filter_product_coach (x : ResultRecord) (ath : Athlete)
    (c : List Coach) (hx : x.place = 1) (ha : ath.athlete_id = x.athlete_id) :
    ((c.map (fun co => ((x, ath), co))).filter (fun t => decide (tripleJoins t)))
      = (c.filter (fun co => co.coach_id = ath.coach_id)).map
          (fun co => ((x, ath), co)) := by
  rw [List.filter_map]
  congr 1
  apply List.filter_congr
  intro co _
  simp [Function.comp, tripleJoins, hx, ha]

/-- The joined frame of `transform_data` equals the full Cartesian product
filtered by the qualify-and-join condition. -/
theorem mergedRows_eq_product (r : List ResultRecord) (a : List Athlete)
    (c : List Coach) :
    mergedRows r a c
      = (resultProduct r a c).filter (fun t => decide (tripleJoins t)) := by
  unfold mergedRows resultProduct winners mergeAthletes mergeCoaches
  rw [List.filter_flatMap, flatMap_filter_eq, List.flatMap_assoc]
  apply flatMap_congr
  intro x _
  by_cases hx : x.place = 1
  · simp only [hx, decide_True, if_true]
    rw [List.filter_flatMap, List.flatMap_map, flatMap_filter_eq]
    apply flatMap_congr
    intro ath _
    by_cases ha : ath.athlete_id = x.athlete_id
    · simp only [ha, decide_True, if_true, Function.comp]
      rw [filter_product_coach x ath c hx ha]
    · simp only [ha, decide_False, Bool.false_eq_true, if_false, Function.comp]
      symm
      rw [List.filter_eq_nil_iff]
      intro t ht
      obtain ⟨co, _, rfl⟩ := List.mem_map.mp ht
      simp [tripleJoins, ha]
  · simp only [hx, decide_False, Bool.false_eq_true, if_false, List.flatMap_nil]
    symm
    rw [List.filter_eq_nil_iff]
    intro t ht
    simp only [List.mem_flatMap, List.mem_map] at ht
    obtain ⟨ath, _, co, _, rfl⟩ := ht
    simp [tripleJoins, hx]

/-- The occurrence count of a coach name in the joined frame equals the
spec-side triple count over the full Cartesian product. -/
theorem count_coachNames_eq_tripleCount (r : List ResultRecord)
    (a : List Athlete) (c : List Coach) (name : String) :
    (coachNames r a c).count name = tripleCount r a c name := by
  rw [coachNames, List.count_eq_countP, List.countP_map, mergedRows_eq_product,
    List.countP_filter, tripleCount]
  apply List.countP_congr
  intro t _
  simp only [Function.comp, Bool.and_eq_true, beq_iff_eq, decide_eq_true_eq]
  tauto

/-- Every entry of the transform output is a row of the grouped frame. -/
theorem mem_transform_mem_groupCounts {p : String × Nat}
    {r : List ResultRecord} {a : List Athlete} {c : List Coach}
    (h : p ∈ transform_data r a c) : p ∈ groupCounts (coachNames r a c) :=
  mem_sortCountsDesc.mp ((List.take_sublist 3 _).subset h)

/-- The joined frame distributes over concatenation of the result set. -/
theorem mergedRows_append (r₁ r₂ : List ResultRecord) (a : List Athlete)
    (c : List Coach) :
    mergedRows (r₁ ++ r₂) a c = mergedRows r₁ a c ++ mergedRows r₂ a c := by
  simp [mergedRows, winners, mergeAthletes, mergeCoaches, List.filter_append,
    List.flatMap_append]

/-- A single result row joins to nothing when its athlete identifier matches
no athlete record, or every matching athlete record carries a coach
identifier matching no coach record. -/
theorem mergedRows_single_unjoinable (x : ResultRecord) (a : List Athlete)
    (c : List Coach)
    (h : (∀ ath ∈ a, ath.athlete_id ≠ x.athlete_id) ∨
         (∀ ath ∈ a, ath.athlete_id = x.athlete_id →
            ∀ co ∈ c, co.coach_id ≠ ath.coach_id)) :
    mergedRows [x] a c = [] := by
  by_cases hx : x.place = 1
  · rcases h with h | h
    · have ha : List.filter (fun q => decide (q.athlete_id = x.athlete_id)) a = [] :=
        List.filter_eq_nil_iff.mpr (fun q hq => by simpa using h q hq)
      simp [mergedRows, winners, hx, mergeAthletes, ha, mergeCoaches]
    · simp only [mergedRows, winners, List.filter_cons, hx, decide_True, if_true,
        List.filter_nil, mergeAthletes, List.flatMap_cons, List.flatMap_nil,
        List.append_nil, mergeCoaches, List.flatMap_map]
      rw [List.flatMap_eq_nil_iff]
      intro q hq
      have hq2 := List.mem_filter.mp hq
      have hc : List.filter (fun co => decide (co.coach_id = q.coach_id)) c = [] := by
        apply List.filter_eq_nil_iff.mpr
        intro co hco
        simpa using h q hq2.1 (by simpa using hq2.2) co hco
      simp [hc]
  · simp [mergedRows, winners, hx, mergeAthletes, mergeCoaches]

/-- C1 (counterexample): with two distinct coaches (ids 10 and 11) that share
the name "A", each with one qualifying joined result, the transform output has
length 1 while min(3, number of distinct qualifying coaches) is 2, because the
grouping key is the coach name, not the coach identity. -/
theorem topk_length_min_distinct_coaches_fails :
    ¬ ((transform_data [⟨1, 1⟩, ⟨2, 1⟩] [⟨1, 10⟩, ⟨2, 11⟩]
          [⟨10, "A"⟩, ⟨11, "A"⟩]).length
        = min 3 (distinctQualifyingCoachIds [⟨1, 1⟩, ⟨2, 1⟩]
            [⟨1, 10⟩, ⟨2, 11⟩] [⟨10, "A"⟩, ⟨11, "A"⟩])) := by
  decide

/-- C1 (amended): for every triple of input record sets, the length of the
transform output equals min(3, number of distinct coach names among the
qualifying joined rows); names with zero qualifying rows contribute no
entry. -/
theorem topk_length_eq_min_distinct_names (r : List ResultRecord)
    (a : List Athlete) (c : List Coach) :
    (transform_data r a c).length
      = min 3 (distinctQualifyingCoachNames r a c) := by
  simp only [transform_data, compute_top_k, distinctQualifyingCoachNames]
  rw [List.length_take, length_sortCountsDesc, length_groupCounts]

/-- C2: the transform output is sorted non-increasing by count: every entry's
count is greater than or equal to the count of every later entry (hence of
the adjacent one). -/
theorem topk_sorted_nonincreasing (r : List ResultRecord) (a : List Athlete)
    (c : List Coach) :
    (transform_data r a c).Pairwise (fun p q => q.2 ≤ p.2) :=
  List.Pairwise.sublist (List.take_sublist 3 _) (pairwise_sortCountsDesc _)

/-- C3: on the spec's concrete example, the transform returns exactly
[("A", 2)]: coach A credited with two first places and coach B absent. -/
theorem topk_example_run :
    transform_data [⟨1, 1⟩, ⟨2, 1⟩, ⟨3, 2⟩] [⟨1, 10⟩, ⟨2, 10⟩, ⟨3, 11⟩]
      [⟨10, "A"⟩, ⟨11, "B"⟩] = [("A", 2)] := by
  decide

/-- C4 (code bug): on an empty results record set the transform does not
return an empty ranking — the frame built from an empty record list has no
columns, so the `place` column access raises a `KeyError` and the run fails
before any load, contradicting the spec's totality guarantee. -/
theorem transform_empty_results_raises (a : List Athlete) (c : List Coach) :
    transform_data_run [] a c = Except.error "place" :=
  rfl

/-- C5: a result row whose athlete identifier matches no athlete record, or
whose matching athlete records all carry a coach identifier matching no
coach record, contributes nothing to the transform output: dropping it
changes nothing, and the remaining rows aggregate as before. -/
theorem unjoinable_row_dropped (r₁ r₂ : List ResultRecord) (a : List Athlete)
    (c : List Coach) (x : ResultRecord)
    (h : (∀ ath ∈ a, ath.athlete_id ≠ x.athlete_id) ∨
         (∀ ath ∈ a, ath.athlete_id = x.athlete_id →
            ∀ co ∈ c, co.coach_id ≠ ath.coach_id)) :
    transform_data (r₁ ++ x :: r₂) a c = transform_data (r₁ ++ r₂) a c := by
  have hm : mergedRows (r₁ ++ x :: r₂) a c = mergedRows (r₁ ++ r₂) a c := by
    have e : r₁ ++ x :: r₂ = r₁ ++ ([x] ++ r₂) := by simp
    rw [e, mergedRows_append r₁ ([x] ++ r₂), mergedRows_append [x] r₂,
      mergedRows_single_unjoinable x a c h, List.nil_append,
      ← mergedRows_append]
  simp only [transform_data, compute_top_k, coachNames, hm]

/-- Witness for C5: a qualifying result for the unknown athlete 99 is
silently dropped from the aggregation. -/
theorem unjoinable_row_dropped_witness :
    (∀ ath ∈ ([⟨1, 10⟩] : List Athlete),
        ath.athlete_id ≠ (⟨99, 1⟩ : ResultRecord).athlete_id) ∧
      transform_data [⟨99, 1⟩, ⟨1, 1⟩] [⟨1, 10⟩] [⟨10, "A"⟩]
        = transform_data [⟨1, 1⟩] [⟨1, 10⟩] [⟨10, "A"⟩] :=
  ⟨by decide,
   unjoinable_row_dropped [] [⟨1, 1⟩] [⟨1, 10⟩] [⟨10, "A"⟩] ⟨99, 1⟩
     (Or.inl (by decide))⟩

/-- C6: the load step replaces the stored ranking entirely: whatever the
prior state of the store, afterwards the table holds exactly the supplied
entries (their data content, in order) and nothing else. -/
theorem load_overwrites_store (entries : List (String × Nat)) (s : Store) :
    (load_to_database entries s).rows.map rowContent = entries :=
  load_rows_content entries s

/-- C7: the load step is overwrite-idempotent: loading the same entries
twice in succession leaves the store holding exactly one copy of each entry,
with no duplication from the repeated run. -/
theorem load_overwrite_idempotent (entries : List (String × Nat)) (s : Store) :
    (load_to_database entries
        (load_to_database entries s)).rows.map rowContent = entries :=
  load_rows_content entries (load_to_database entries s)

/-- C8: the transform is deterministic: two runs on identical inputs yield
identical output sequences, tie order included. -/
theorem topk_deterministic (r₁ r₂ : List ResultRecord) (a₁ a₂ : List Athlete)
    (c₁ c₂ : List Coach) (hr : r₁ = r₂) (ha : a₁ = a₂) (hc : c₁ = c₂) :
    compute_top_k r₁ a₁ c₁ 3 = compute_top_k r₂ a₂ c₂ 3 := by
  subst hr; subst ha; subst hc; rfl

/-- Witness for C8: determinism at a concrete input. -/
theorem topk_deterministic_witness :
    ([⟨1, 1⟩] = ([⟨1, 1⟩] : List ResultRecord)) ∧
      compute_top_k [⟨1, 1⟩] [⟨1, 10⟩] [⟨10, "A"⟩] 3
        = compute_top_k [⟨1, 1⟩] [⟨1, 10⟩] [⟨10, "A"⟩] 3 :=
  ⟨rfl, topk_deterministic _ _ _ _ _ _ rfl rfl rfl⟩

/-- C10: every entry of the transform output carries the join-multiplicity
count of its name: the number of (result, athlete, coach) triples that
qualify and join and whose coach record bears that name.  A result joined by
several matching athlete records is counted once per record, and coach
records with distinct identifiers but one name pool into a single entry. -/
theorem topk_count_eq_tripleCount (r : List ResultRecord) (a : List Athlete)
    (c : List Coach) (name : String) (cnt : Nat)
    (h : (name, cnt) ∈ transform_data r a c) :
    cnt = tripleCount r a c name := by
  rw [mem_groupCounts (mem_transform_mem_groupCounts h),
    count_coachNames_eq_tripleCount]

/-- Witness for C10: athlete 1 recorded twice under coach 10 doubles the
credit of one first place, and the distinct coaches 10 and 11, both named
"A", pool into the single entry ("A", 3). -/
theorem topk_count_eq_tripleCount_witness :
    (("A", 3) ∈ transform_data [⟨1, 1⟩, ⟨2, 1⟩] [⟨1, 10⟩, ⟨1, 10⟩, ⟨2, 11⟩]
        [⟨10, "A"⟩, ⟨11, "A"⟩]) ∧
      3 = tripleCount [⟨1, 1⟩, ⟨2, 1⟩] [⟨1, 10⟩, ⟨1, 10⟩, ⟨2, 11⟩]
          [⟨10, "A"⟩, ⟨11, "A"⟩] "A" :=
  ⟨by decide,
   topk_count_eq_tripleCount [⟨1, 1⟩, ⟨2, 1⟩] [⟨1, 10⟩, ⟨1, 10⟩, ⟨2, 11⟩]
     [⟨10, "A"⟩, ⟨11, "A"⟩] "A" 3 (by decide)⟩

end CoachesTop3
